import Mathlib

/-!
Shallow embedding of the ZNS-WAL VFS shim (`src/os_zns.c`, the complete
implementation beginning at the second document header in that file) for
SQLite: the per-handle buffered zone file (`znsWrite`, `znsFlushBuffer`,
`znsSync`, `znsTruncate`, `resetZnsZone`, `znsDeviceCharacteristics`), and
the process-wide Zone Manager (`znsZoneManagerInit`, `znsGetFreeZoneFile`,
the release step of `znsClose`, `znsDelete`).

Conventions of the embedding:
* byte buffers and file contents are `List Nat`;
* `sqlite3_int64` sizes and offsets are `Nat` (SQLite never passes negative
  offsets or lengths to these methods);
* result codes are `Int` with the literal SQLite values;
* fallible collaborators (realloc, the underlying VFS write/sync, the
  open/ioctl pair of the reset driver) are oracles passed as parameters:
  a `Bool` when only success/failure matters, an `Int` result code when the
  code surfaces the collaborator result unchanged;
* the C capacity field `nAlloc` is represented by `buffer.length` (the code
  keeps `nAlloc` equal to the allocated length at all times, and a NULL
  `pBuffer` corresponds to the empty list with `nAlloc = 0`).
-/

/-! ### SQLite result codes and capability bits (literal values) -/

def SQLITE_OK : Int := 0
def SQLITE_NOMEM : Int := 7
def SQLITE_FULL : Int := 13
def SQLITE_CANTOPEN : Int := 14
def SQLITE_IOERR_WRITE : Int := 778
def SQLITE_IOERR_TRUNCATE : Int := 1546
def SQLITE_IOERR_DELETE : Int := 2570
def SQLITE_IOERR_ACCESS : Int := 3338
def SQLITE_IOCAP_SEQUENTIAL : Nat := 1024
def SQLITE_IOCAP_POWERSAFE_OVERWRITE : Nat := 4096
def SQLITE_IOCAP_SAFE_APPEND : Nat := 512

/-! ### Per-handle state (`struct zns_file`)

`pReal`/`zPath` are handle identity; the fields the claims are about are the
classification bit and the buffer triple. -/

structure ZnsFile where
  isZnsWal : Bool
  /-- `pBuffer`, of length `nAlloc`; `[]` models a NULL buffer. -/
  buffer : List Nat
  /-- `nBuffer` : current logical size of data in the buffer. -/
  nBuffer : Nat
  /-- `iFlushed` : amount of data already written to the inner file. -/
  iFlushed : Nat
deriving Repr, DecidableEq

/-- Align a size up to a 1 KiB boundary; equals the source expression
`(newAlloc + 1023) & ~1023LL` for non-negative sizes. -/
def alignUp1K (n : Nat) : Nat := ((n + 1023) / 1024) * 1024

/-- `znsEnsureBuffer`: grow the buffer so that its capacity is at least
`needed`: take the maximum of `needed`, twice the current capacity and 4096,
then align up to 1 KiB. `allocOk` is the realloc oracle; `none` is
`SQLITE_NOMEM` with the handle unchanged. realloc preserves the old content;
the model fills the new tail with zeros (the C bytes are uninitialized and
no claim observes them before they are overwritten). -/
def znsEnsureBuffer (p : ZnsFile) (needed : Nat) (allocOk : Bool) : Option ZnsFile :=
  if needed > p.buffer.length then
    if allocOk then
      let a1 := if needed < p.buffer.length * 2 then p.buffer.length * 2 else needed
      let a2 := if a1 < 4096 then 4096 else a1
      let newAlloc := alignUp1K a2
      some { p with buffer := p.buffer ++ List.replicate (newAlloc - p.buffer.length) 0 }
    else none
  else some p

/-- `memcpy(pBuffer + i, data, data.length)` on a list buffer. -/
def listWrite (buf : List Nat) (i : Nat) (data : List Nat) : List Nat :=
  buf.take i ++ data ++ buf.drop (i + data.length)

/-- Write `data` into a plain file image at offset `i` (the `xWrite` of the inner VFS), zero-padding if the offset is past the end. -/
def innerWrite (f : List Nat) (i : Nat) (data : List Nat) : List Nat :=
  f.take i ++ List.replicate (i - (f.take i).length) 0 ++ data ++ f.drop (i + data.length)

/-- `znsWrite`: for a ZNS WAL handle, ensure capacity for `iOfst + len`,
reject a gap (`iOfst > nBuffer`) with `SQLITE_IOERR_WRITE`, otherwise copy
into the buffer and extend `nBuffer`; no inner I/O. For other handles, pass
through to the inner `xWrite` (result code oracle `passRc`). Returns
(result code, handle, inner file). -/
def znsWrite (p : ZnsFile) (inner : List Nat) (data : List Nat) (iOfst : Nat)
    (allocOk : Bool) (passRc : Int) : Int × ZnsFile × List Nat :=
  if p.isZnsWal then
    match znsEnsureBuffer p (iOfst + data.length) allocOk with
    | none => (SQLITE_NOMEM, p, inner)
    | some p1 =>
      if iOfst > p1.nBuffer then
        (SQLITE_IOERR_WRITE, p1, inner)
      else
        (SQLITE_OK,
         { p1 with
           buffer := listWrite p1.buffer iOfst data,
           nBuffer := if iOfst + data.length > p1.nBuffer then iOfst + data.length
                      else p1.nBuffer },
         inner)
  else
    (passRc, p, innerWrite inner iOfst data)

/-- `znsFlushBuffer`: no-op success unless the handle is a ZNS WAL with an
allocated buffer and `nBuffer > iFlushed`; otherwise write
`buffer[iFlushed .. nBuffer)` to the inner file at offset `iFlushed` (the
inner `xWrite` result is the oracle `writeRc`); on success advance
`iFlushed` to `nBuffer`, on failure surface `writeRc` and change nothing. -/
def znsFlushBuffer (p : ZnsFile) (inner : List Nat) (writeRc : Int) :
    Int × ZnsFile × List Nat :=
  if !p.isZnsWal || p.buffer.isEmpty || p.nBuffer ≤ p.iFlushed then
    (SQLITE_OK, p, inner)
  else if writeRc = SQLITE_OK then
    (SQLITE_OK,
     { p with iFlushed := p.nBuffer },
     innerWrite inner p.iFlushed ((p.buffer.drop p.iFlushed).take (p.nBuffer - p.iFlushed)))
  else
    (writeRc, p, inner)

/-- `znsSync`: for a ZNS WAL handle, flush first and call the inner `xSync`
with the flags of the caller only when the flush succeeded; otherwise surface the
flush error. For other handles, pass straight through to the inner `xSync`.
`xSyncInner` is the sync of the inner backend as a function of the flags. -/
def znsSync (p : ZnsFile) (inner : List Nat) (flags : Int) (writeRc : Int)
    (xSyncInner : Int → Int) : Int × ZnsFile × List Nat :=
  if p.isZnsWal then
    let r := znsFlushBuffer p inner writeRc
    if r.1 = SQLITE_OK then (xSyncInner flags, r.2.1, r.2.2) else r
  else
    (xSyncInner flags, p, inner)

/-- `resetZnsZone`: reopen the zone path read-write (`openOk`), issue the
BLKRESETZONE ioctl (`ioctlOk`); open failure yields `SQLITE_IOERR_ACCESS`,
ioctl failure `SQLITE_IOERR_TRUNCATE`. Non-ZNS handles return OK at once. -/
def resetZnsZone (isZnsWal : Bool) (openOk ioctlOk : Bool) : Int :=
  if !isZnsWal then SQLITE_OK
  else if !openOk then SQLITE_IOERR_ACCESS
  else if !ioctlOk then SQLITE_IOERR_TRUNCATE
  else SQLITE_OK

/-- `znsTruncate`: for a ZNS WAL handle and size 0, zero `nBuffer` and
`iFlushed` (the allocation is kept) and return the result of `resetZnsZone`; for
a ZNS WAL handle and a non-zero size, warn and return OK unchanged; else
pass through (`passRc`). -/
def znsTruncate (p : ZnsFile) (size : Nat) (openOk ioctlOk : Bool) (passRc : Int) :
    Int × ZnsFile :=
  if p.isZnsWal ∧ size = 0 then
    (resetZnsZone true openOk ioctlOk, { p with nBuffer := 0, iFlushed := 0 })
  else if p.isZnsWal then
    (SQLITE_OK, p)
  else
    (passRc, p)

/-- `znsDeviceCharacteristics` (the operative definition, the one reached
from the method table of this implementation): query the inner backend and return
its mask unchanged — the ZNS branch of the source only holds commented-out
candidate bits. -/
def znsDeviceCharacteristics (_p : ZnsFile) (innerBits : Nat) : Nat :=
  innerBits

/-! ### Path helpers (suffix test and basename extraction of the source) -/

/-- `tolower` on ASCII letters, as used by `sqlite3_strnicmp`. -/
def toLowerC (c : Char) : Char :=
  if 'A' ≤ c ∧ c ≤ 'Z' then Char.ofNat (c.toNat + 32) else c

/-- The `-wal` suffix test of `znsDelete`/`znsAccess`:
`strlen(zPath) > 4 && sqlite3_strnicmp(&zPath[n-4], "-wal", 4) == 0`. -/
def hasWalSuffix (p : List Char) : Bool :=
  decide (p.length > 4) &&
    ((p.reverse.take 4).reverse.map toLowerC == ['-', 'w', 'a', 'l'])

/-- Base name after the last '/': `strrchr(zPath, '/')`, the whole path when
there is no slash. -/
def baseName (p : List Char) : List Char :=
  (p.reverse.takeWhile (fun c => c ≠ '/')).reverse

/-- C `isspace` on the default locale, as skipped by `sscanf`. -/
def isSpaceC (c : Char) : Bool :=
  c = ' ' || c = '\t' || c = '\n' || c = '\x0b' || c = '\x0c' || c = '\x0d'

def isHexDigitC (c : Char) : Bool :=
  ('0' ≤ c && c ≤ '9') || ('a' ≤ c && c ≤ 'f') || ('A' ≤ c && c ≤ 'F')

/-- Success predicate of `sscanf(name, "%04x", &n) == 1`: the conversion
skips leading whitespace and an optional sign, then succeeds iff at least
one character converts — i.e. iff the next character is a hexadecimal digit
(the field width 4 and the parsed value only bound how much is consumed,
never whether the conversion succeeds). -/
def scanfHex4Accepts (name : List Char) : Bool :=
  match name.dropWhile isSpaceC with
  | [] => false
  | c :: rest =>
    if c = '+' || c = '-' then
      match rest with
      | [] => false
      | d :: _ => isHexDigitC d
    else isHexDigitC c

/-! ### Zone Manager (`struct zns_zone_manager`)

The three parallel arrays `aZoneFiles` / `aZoneState` / `aWalNames` are one
list of records; fixed-after-discovery `zZnsPath` and the mutex are not
modelled (every manager operation holds the mutex for its whole body). -/

structure ZoneRec where
  /-- `aZoneFiles[i]` : absolute path of the zone file. -/
  zPath : List Char
  /-- `aZoneState[i]` : `true` = 1 = Allocated, `false` = 0 = Free. -/
  zState : Bool
  /-- `aWalNames[i]` : WAL base name mapped to this zone, if any. -/
  zWal : Option (List Char)
deriving Repr, DecidableEq

/-- Directory-entry type, as discovery reads `entry->d_type`. -/
inductive DType where
  | reg
  | unknown
  | dir
  | other
deriving Repr, DecidableEq

/-- Entry filter of `znsZoneManagerInit`:
`(d_type == DT_REG || d_type == DT_UNKNOWN) && sscanf(d_name, "%04x", &n) == 1`. -/
def isZoneEntry (e : List Char × DType) : Bool :=
  (e.2 == DType.reg || e.2 == DType.unknown) && scanfHex4Accepts e.1

/-- Zone discovery of `znsZoneManagerInit` on a root directory listing: the
matching entries, in directory order, become records with
`path = root ++ "/" ++ name`, state Free, no mapped WAL name. (The source
counts in a first pass and fills the arrays in a second pass over the same
listing, which yields exactly this filter-and-map.) -/
def znsZoneManagerInit (root : List Char) (entries : List (List Char × DType)) :
    List ZoneRec :=
  (entries.filter isZoneEntry).map (fun e => ⟨root ++ '/' :: e.1, false, none⟩)

/-- Scan 1 of `znsGetFreeZoneFile`: the path of the Allocated record whose
`aWalNames` entry equals the base name, if any. -/
def findMapped : List ZoneRec → List Char → Option (List Char)
  | [], _ => none
  | z :: zs, b =>
    if z.zState = true ∧ z.zWal = some b then some z.zPath else findMapped zs b

/-- Scan 2 of `znsGetFreeZoneFile`: allocate the first Free record to base
name `b` and return its path; `(none, unchanged)` when every record is
Allocated. -/
def acquireFree : List ZoneRec → List Char → Option (List Char) × List ZoneRec
  | [], _ => (none, [])
  | z :: zs, b =>
    if z.zState = false then
      (some z.zPath, { z with zState := true, zWal := some b } :: zs)
    else
      let r := acquireFree zs b
      (r.1, z :: r.2)

/-- `znsGetFreeZoneFile`: return the zone already mapped to the base
name of the WAL, else allocate the first Free zone to it (the `sqlite3_mprintf` copy of
the name is the oracle `allocOk`; on failure the zone is left Free and the
call returns `none` with the manager unchanged). -/
def znsGetFreeZoneFile (zm : List ZoneRec) (zWalName : List Char) (allocOk : Bool) :
    Option (List Char) × List ZoneRec :=
  match findMapped zm (baseName zWalName) with
  | some pa => (some pa, zm)
  | none => if allocOk then acquireFree zm (baseName zWalName) else (none, zm)

/-- Zone-acquisition step of `znsOpen` for a ZNS-WAL open (lines that call
`znsGetFreeZoneFile` and return `SQLITE_FULL` on `NULL`; on success the open
proceeds against the returned zone path through the inner VFS, which is not
modelled here). -/
def znsOpenAcquireZone (zm : List ZoneRec) (zWalName : List Char) (allocOk : Bool) :
    Int × List ZoneRec :=
  match znsGetFreeZoneFile zm zWalName allocOk with
  | (none, zm1) => (SQLITE_FULL, zm1)
  | (some _, zm1) => (SQLITE_OK, zm1)

/-- Zone-release step of `znsClose`: find the record whose path equals the
zone path of the handle; if it is Allocated, mark it Free and clear its mapping;
an already-free record is left alone (warning only); first match wins. -/
def znsCloseRelease : List ZoneRec → List Char → List ZoneRec
  | [], _ => []
  | z :: zs, pa =>
    if z.zPath = pa then
      (if z.zState = true then { z with zState := false, zWal := none } :: zs else z :: zs)
    else
      z :: znsCloseRelease zs pa

/-- Inner scan of `znsDelete`: find the Allocated record mapped to base name
`b`; mark it Free and clear the mapping; `none` when no record matches. -/
def znsDeleteScan : List ZoneRec → List Char → Option (List ZoneRec)
  | [], _ => none
  | z :: zs, b =>
    if z.zState = true ∧ z.zWal = some b then
      some ({ z with zState := false, zWal := none } :: zs)
    else
      match znsDeleteScan zs b with
      | some zs1 => some (z :: zs1)
      | none => none

/-- `znsDelete`: when ZNS mode is on and the path has the `-wal` suffix and
a zone is mapped to its base name, reset that zone (open + BLKRESETZONE,
outcome `resetOk` — discarded), release it, and return `SQLITE_OK`;
otherwise pass the delete to the OS backend (`passRc`). The third component
records whether the physical reset was attempted. -/
def znsDelete (zm : List ZoneRec) (zPath : List Char) (znsEnabled : Bool)
    (_resetOk : Bool) (passRc : Int) : Int × List ZoneRec × Bool :=
  if znsEnabled && hasWalSuffix zPath then
    match znsDeleteScan zm (baseName zPath) with
    | some zm1 => (SQLITE_OK, zm1, true)
    | none => (passRc, zm, false)
  else
    (passRc, zm, false)

/-! ### Spec-side predicate for the discovery claim (C8)

Modelled from the spec: "zones are exactly the regular-file entries whose
names match four lowercase hexadecimal digits", to be compared with
the `sscanf` test of `isZoneEntry`. -/

def specFourLowerHex (name : List Char) : Bool :=
  (name.length == 4) && name.all (fun c => ('0' ≤ c && c ≤ '9') || ('a' ≤ c && c ≤ 'f'))

/-! ### Zone Manager invariant (C6) -/

/-- A WAL base name appears in the `mapped_wal` of at most one zone. -/
def zwalUnique (zs : List ZoneRec) : Prop :=
  List.Pairwise (fun a b => a.zWal = none ∨ a.zWal ≠ b.zWal) zs

/-- `state = Allocated ⇔ mapped_wal` present. -/
def zstateMatches (zs : List ZoneRec) : Prop :=
  ∀ z ∈ zs, z.zState = true ↔ z.zWal ≠ none

/-- The Zone Manager invariant of the data model section of the spec. -/
def zmInv (zs : List ZoneRec) : Prop :=
  zwalUnique zs ∧ zstateMatches zs

instance : DecidablePred (zwalUnique) := fun zs => by
  unfold zwalUnique; infer_instance

instance : DecidablePred (zstateMatches) := fun zs => by
  unfold zstateMatches; infer_instance

instance : DecidablePred (zmInv) := fun zs => by
  unfold zmInv; infer_instance

/-! ### Helper lemmas: buffer growth and byte copying -/

lemma le_alignUp1K (n : Nat) : n ≤ alignUp1K n := by
  unfold alignUp1K
  have h1 : (n + 1023) % 1024 + 1024 * ((n + 1023) / 1024) = n + 1023 :=
    Nat.mod_add_div _ _
  have h2 : (n + 1023) % 1024 < 1024 := Nat.mod_lt _ (by norm_num)
  omega

/-- A successful `znsEnsureBuffer` keeps every field but the allocation, has
capacity at least `needed`, only grows the allocation, and preserves the
bytes already allocated. -/
lemma ensure_spec (p : ZnsFile) (n : Nat) :
    ∃ q, znsEnsureBuffer p n true = some q ∧
      q.isZnsWal = p.isZnsWal ∧ q.nBuffer = p.nBuffer ∧ q.iFlushed = p.iFlushed ∧
      n ≤ q.buffer.length ∧ p.buffer.length ≤ q.buffer.length ∧
      ∀ j < p.buffer.length, q.buffer[j]? = p.buffer[j]? := by
  unfold znsEnsureBuffer
  by_cases h : n > p.buffer.length
  · simp only [h, if_true]
    set a1 := if n < p.buffer.length * 2 then p.buffer.length * 2 else n with ha1
    set a2 := if a1 < 4096 then 4096 else a1 with ha2
    have hn1 : n ≤ a1 := by rw [ha1]; split <;> omega
    have h12 : a1 ≤ a2 := by rw [ha2]; split <;> omega
    have h2A : a2 ≤ alignUp1K a2 := le_alignUp1K a2
    have hlen : p.buffer.length ≤ alignUp1K a2 := by omega
    refine ⟨_, rfl, rfl, rfl, rfl, ?_, ?_, ?_⟩
    · simp only [List.length_append, List.length_replicate]
      omega
    · simp only [List.length_append, List.length_replicate]
      omega
    · intro j hj
      simp only
      rw [List.getElem?_append_left hj]
  · simp only [h, if_false]
    exact ⟨p, rfl, rfl, rfl, rfl, by omega, le_refl _, fun j _ => rfl⟩

/-- Bytes `[i, i + data.length)` of the copied buffer are the copied data. -/
lemma listWrite_extract (buf data : List Nat) (i : Nat) (hi : i ≤ buf.length) :
    ((listWrite buf i data).drop i).take data.length = data := by
  unfold listWrite
  have hlen : (buf.take i).length = i := by
    rw [List.length_take]; omega
  rw [List.append_assoc, List.drop_left' hlen, List.take_left]

/-- Bytes below the copy offset are untouched by `listWrite`. -/
lemma listWrite_get_lt (buf data : List Nat) (i j : Nat) (hj : j < i)
    (hjl : j < buf.length) :
    (listWrite buf i data)[j]? = buf[j]? := by
  unfold listWrite
  have hjt : j < (buf.take i).length := by
    rw [List.length_take]; omega
  rw [List.append_assoc, List.getElem?_append_left hjt, List.getElem?_take_of_lt hj]

/-- `listWrite` never shrinks the buffer. -/
lemma listWrite_length_ge (buf data : List Nat) (i : Nat) :
    buf.length ≤ (listWrite buf i data).length := by
  unfold listWrite
  simp only [List.length_append, List.length_take, List.length_drop]
  omega

/-- The inner `xWrite` of zero bytes at an in-range offset is the identity. -/
lemma innerWrite_nil (f : List Nat) (i : Nat) (hi : i ≤ f.length) :
    innerWrite f i [] = f := by
  unfold innerWrite
  have hlen : (f.take i).length = i := by
    rw [List.length_take]; omega
  rw [hlen]
  simp [List.take_append_drop]

/-! ### Claim theorems: buffered write engine -/

/-- C1. On an open ZNS-WAL handle, assuming buffer growth succeeds: a write
at an offset past `logical_size` (`nBuffer`) returns the I/O write error;
otherwise it returns OK, the buffer bytes `[ofst, ofst+len)` equal the
written bytes, and `logical_size` becomes `max logical_size (ofst+len)`;
the inner file sees no I/O in either case. -/
theorem claim_C1 (p : ZnsFile) (inner data : List Nat) (iOfst : Nat) (passRc : Int)
    (hz : p.isZnsWal = true) :
    (iOfst > p.nBuffer →
      (znsWrite p inner data iOfst true passRc).1 = SQLITE_IOERR_WRITE ∧
      (znsWrite p inner data iOfst true passRc).2.2 = inner) ∧
    (iOfst ≤ p.nBuffer →
      (znsWrite p inner data iOfst true passRc).1 = SQLITE_OK ∧
      (((znsWrite p inner data iOfst true passRc).2.1.buffer.drop iOfst).take data.length
        = data) ∧
      (znsWrite p inner data iOfst true passRc).2.1.nBuffer
        = max p.nBuffer (iOfst + data.length) ∧
      (znsWrite p inner data iOfst true passRc).2.2 = inner) := by
  obtain ⟨q, hq, hw, hnb, hfl, hcap, hmono, hpres⟩ := ensure_spec p (iOfst + data.length)
  unfold znsWrite
  rw [hz, hq]
  simp only [if_true]
  constructor
  · intro hgap
    rw [if_pos (by omega : iOfst > q.nBuffer)]
    exact ⟨rfl, rfl⟩
  · intro hle
    rw [if_neg (by omega : ¬ iOfst > q.nBuffer)]
    refine ⟨rfl, ?_, ?_, rfl⟩
    · exact listWrite_extract q.buffer data iOfst (by omega)
    · simp only [hnb]
      rcases Nat.lt_or_ge p.nBuffer (iOfst + data.length) with hc | hc
      · rw [if_pos (by omega), Nat.max_eq_right (by omega)]
      · rw [if_neg (by omega), Nat.max_eq_left (by omega)]

/-- `znsEnsureBuffer` with an arbitrary realloc oracle either fails with the
handle untouched or succeeds preserving fields, allocation length and the
already-allocated bytes. -/
lemma ensure_cases (p : ZnsFile) (n : Nat) (allocOk : Bool) :
    znsEnsureBuffer p n allocOk = none ∨
    ∃ q, znsEnsureBuffer p n allocOk = some q ∧
      q.isZnsWal = p.isZnsWal ∧ q.nBuffer = p.nBuffer ∧ q.iFlushed = p.iFlushed ∧
      p.buffer.length ≤ q.buffer.length ∧
      ∀ j < p.buffer.length, q.buffer[j]? = p.buffer[j]? := by
  cases allocOk
  · unfold znsEnsureBuffer
    by_cases h : n > p.buffer.length
    · left; simp [h]
    · right; exact ⟨p, by simp [h], rfl, rfl, rfl, le_refl _, fun j _ => rfl⟩
  · obtain ⟨q, hq, hw, hnb, hfl, _, hmono, hpres⟩ := ensure_spec p n
    exact Or.inr ⟨q, hq, hw, hnb, hfl, hmono, hpres⟩

/-- A flush that returns OK leaves `iFlushed = nBuffer`, given the
reachable-handle facts `iFlushed ≤ nBuffer` and (NULL buffer →
`nBuffer ≤ iFlushed`). -/
lemma flush_ok_flushed (p : ZnsFile) (inner : List Nat) (writeRc : Int)
    (hz : p.isZnsWal = true) (h2 : p.iFlushed ≤ p.nBuffer)
    (h3 : p.buffer = [] → p.nBuffer ≤ p.iFlushed) :
    (znsFlushBuffer p inner writeRc).1 = SQLITE_OK →
    (znsFlushBuffer p inner writeRc).2.1.iFlushed
      = (znsFlushBuffer p inner writeRc).2.1.nBuffer := by
  unfold znsFlushBuffer
  split
  · next hguard =>
    intro
    simp only [hz, Bool.not_true, Bool.false_or, Bool.or_eq_true,
      List.isEmpty_iff, decide_eq_true_eq] at hguard
    rcases hguard with hnil | hle
    · exact le_antisymm h2 (h3 hnil)
    · exact le_antisymm h2 hle
  · split
    · intro; rfl
    · next hrc => intro hOk; exact absurd hOk hrc

/-- Witness for C1 at a concrete handle: logical size 2, append of two bytes
at offset 1 and a gap write at offset 3. -/
theorem claim_C1_witness :
    ((3 : Nat) > (2 : Nat) →
      (znsWrite ⟨true, [5, 6], 2, 0⟩ [9] [7, 8] 3 true 0).1 = SQLITE_IOERR_WRITE ∧
      (znsWrite ⟨true, [5, 6], 2, 0⟩ [9] [7, 8] 3 true 0).2.2 = [9]) ∧
    ((1 : Nat) ≤ (2 : Nat) →
      (znsWrite ⟨true, [5, 6], 2, 0⟩ [9] [7, 8] 1 true 0).1 = SQLITE_OK ∧
      (((znsWrite ⟨true, [5, 6], 2, 0⟩ [9] [7, 8] 1 true 0).2.1.buffer.drop 1).take 2
        = [7, 8]) ∧
      (znsWrite ⟨true, [5, 6], 2, 0⟩ [9] [7, 8] 1 true 0).2.1.nBuffer = max 2 (1 + 2) ∧
      (znsWrite ⟨true, [5, 6], 2, 0⟩ [9] [7, 8] 1 true 0).2.2 = [9]) :=
  ⟨(claim_C1 ⟨true, [5, 6], 2, 0⟩ [9] [7, 8] 3 0 rfl).1,
   (claim_C1 ⟨true, [5, 6], 2, 0⟩ [9] [7, 8] 1 0 rfl).2⟩

/-- C10. On a ZNS-WAL handle, every erroneous write (gap rejection or
out-of-memory during growth) leaves `logical_size`, `flushed` and the bytes
in `[0, logical_size)` of the allocation unchanged — only spare capacity may
have grown — and touches no inner I/O; moreover the capacity check runs
before the gap check, so a write at an offset beyond `logical_size` can
report out-of-memory instead of the I/O write error (concrete instance:
empty handle, one byte at offset 5 with realloc failing). -/
theorem claim_C10 :
    (∀ (p : ZnsFile) (inner data : List Nat) (iOfst : Nat) (allocOk : Bool) (passRc : Int),
      p.isZnsWal = true →
      (znsWrite p inner data iOfst allocOk passRc).1 ≠ SQLITE_OK →
      (znsWrite p inner data iOfst allocOk passRc).2.1.nBuffer = p.nBuffer ∧
      (znsWrite p inner data iOfst allocOk passRc).2.1.iFlushed = p.iFlushed ∧
      p.buffer.length ≤ (znsWrite p inner data iOfst allocOk passRc).2.1.buffer.length ∧
      (∀ j, j < p.nBuffer → j < p.buffer.length →
        (znsWrite p inner data iOfst allocOk passRc).2.1.buffer[j]? = p.buffer[j]?) ∧
      (znsWrite p inner data iOfst allocOk passRc).2.2 = inner) ∧
    ((znsWrite ⟨true, [], 0, 0⟩ [] [1] 5 false 0).1 = SQLITE_NOMEM ∧
      (5 : Nat) > (0 : Nat) ∧ SQLITE_NOMEM ≠ SQLITE_IOERR_WRITE) := by
  constructor
  · intro p inner data iOfst allocOk passRc hz hne
    rcases ensure_cases p (iOfst + data.length) allocOk with hnone |
      ⟨q, hq, hw, hnb, hfl, hmono, hpres⟩
    · unfold znsWrite at hne ⊢
      rw [hz, hnone] at hne ⊢
      exact ⟨rfl, rfl, le_refl _, fun j _ _ => rfl, rfl⟩
    · unfold znsWrite at hne ⊢
      rw [hz, hq] at hne ⊢
      simp only [if_true] at hne ⊢
      by_cases hgap : iOfst > q.nBuffer
      · rw [if_pos hgap] at hne ⊢
        exact ⟨hnb, hfl, hmono, fun j _ hjl => hpres j hjl, rfl⟩
      · rw [if_neg hgap] at hne
        exact absurd rfl hne
  · exact ⟨by decide, by decide, by decide⟩

/-- Witness for C10: a gap write with a successful growth returns the I/O
write error and leaves size, flushed mark, prior bytes and inner file
unchanged. -/
theorem claim_C10_witness :
    (znsWrite ⟨true, [9], 1, 1⟩ [4] [2] 4 true 0).1 ≠ SQLITE_OK ∧
    (znsWrite ⟨true, [9], 1, 1⟩ [4] [2] 4 true 0).2.1.nBuffer = 1 ∧
    (znsWrite ⟨true, [9], 1, 1⟩ [4] [2] 4 true 0).2.1.iFlushed = 1 ∧
    (znsWrite ⟨true, [9], 1, 1⟩ [4] [2] 4 true 0).2.1.buffer[0]? = some 9 ∧
    (znsWrite ⟨true, [9], 1, 1⟩ [4] [2] 4 true 0).2.2 = [4] := by
  have hne : (znsWrite ⟨true, [9], 1, 1⟩ [4] [2] 4 true 0).1 ≠ SQLITE_OK := by decide
  have h := (claim_C10.1 ⟨true, [9], 1, 1⟩ [4] [2] 4 true 0 rfl hne)
  exact ⟨hne, h.1, h.2.1, by
    have := h.2.2.2.1 0 (by decide) (by decide)
    simpa using this, h.2.2.2.2⟩

/-- C2. `znsFlushBuffer` on a ZNS-WAL handle (with the reachable-handle
facts `flushed ≤ logical_size`, buffer allocated whenever there is unflushed
data, and `flushed` no larger than the physical size): on success it writes
exactly `buffer[flushed .. logical_size)` to the inner file at offset
`flushed` and sets `flushed = logical_size`; on a failed underlying write it
surfaces the error with `flushed`, `logical_size`, the buffer and the inner
file all unchanged, so a later sync can retry. -/
theorem claim_C2 (p : ZnsFile) (inner : List Nat) (writeRc : Int)
    (hz : p.isZnsWal = true)
    (h2 : p.iFlushed ≤ p.nBuffer)
    (h3 : p.iFlushed < p.nBuffer → p.buffer ≠ [])
    (h4 : p.iFlushed ≤ inner.length) :
    (znsFlushBuffer p inner SQLITE_OK =
      (SQLITE_OK, { p with iFlushed := p.nBuffer },
       innerWrite inner p.iFlushed
         ((p.buffer.drop p.iFlushed).take (p.nBuffer - p.iFlushed)))) ∧
    (writeRc ≠ SQLITE_OK → p.iFlushed < p.nBuffer →
      znsFlushBuffer p inner writeRc = (writeRc, p, inner)) := by
  obtain ⟨w, buf, nb, fl⟩ := p
  simp only at hz h2 h3 h4 ⊢
  subst hz
  rcases Nat.lt_or_ge fl nb with hlt | hge
  · have hnil : buf.isEmpty = false := by
      rcases hb : buf with _ | ⟨c, cs⟩
      · exact absurd hb (h3 hlt)
      · rfl
    constructor
    · unfold znsFlushBuffer
      simp only [Bool.not_true, Bool.false_or, hnil]
      rw [if_neg (by simpa using Nat.not_le.mpr hlt)]
      simp
    · intro hrc _
      unfold znsFlushBuffer
      simp only [Bool.not_true, Bool.false_or, hnil]
      rw [if_neg (by simpa using Nat.not_le.mpr hlt), if_neg hrc]
  · have heq : fl = nb := le_antisymm h2 hge
    subst heq
    constructor
    · unfold znsFlushBuffer
      rw [if_pos (by simp)]
      have h0 : fl - fl = 0 := by omega
      rw [h0]
      simp only [List.take_zero]
      rw [innerWrite_nil inner fl h4]
    · intro _ hlt
      exact absurd hlt (by omega)

/-- Witness for C2: handle with bytes `[1,2,3,4]`, logical size 3, flushed
mark 1, inner file `[9]`; a successful flush appends bytes `[2,3]` at offset
1 and advances `flushed` to 3; a failed flush (code 1) changes nothing. -/
theorem claim_C2_witness :
    znsFlushBuffer ⟨true, [1, 2, 3, 4], 3, 1⟩ [9] SQLITE_OK =
      (SQLITE_OK, ⟨true, [1, 2, 3, 4], 3, 3⟩, [9, 2, 3]) ∧
    znsFlushBuffer ⟨true, [1, 2, 3, 4], 3, 1⟩ [9] 1 =
      (1, ⟨true, [1, 2, 3, 4], 3, 1⟩, [9]) := by
  have h := claim_C2 ⟨true, [1, 2, 3, 4], 3, 1⟩ [9] 1 rfl (by decide)
    (fun _ => by decide) (by decide)
  exact ⟨h.1.trans (by decide), (h.2 (by decide) (by decide)).trans (by decide)⟩

/-- C3. `znsSync` on a ZNS-WAL handle runs the buffer flush first and calls
the sync of the inner backend with the flags of the caller only when the flush
succeeded (on flush failure the result does not depend on the inner sync at
all); whenever sync returns OK, `flushed = logical_size` at completion; a
sync of a non-ZNS handle is a pure pass-through of the inner sync on the
flags of the caller. -/
theorem claim_C3 (p : ZnsFile) (inner : List Nat) (flags writeRc : Int)
    (xS xT : Int → Int)
    (h2 : p.iFlushed ≤ p.nBuffer)
    (h3 : p.buffer = [] → p.nBuffer ≤ p.iFlushed) :
    (p.isZnsWal = true →
      ((znsFlushBuffer p inner writeRc).1 = SQLITE_OK →
        znsSync p inner flags writeRc xS =
          (xS flags, (znsFlushBuffer p inner writeRc).2.1,
           (znsFlushBuffer p inner writeRc).2.2)) ∧
      ((znsFlushBuffer p inner writeRc).1 ≠ SQLITE_OK →
        znsSync p inner flags writeRc xS = znsFlushBuffer p inner writeRc ∧
        znsSync p inner flags writeRc xS = znsSync p inner flags writeRc xT)) ∧
    (p.isZnsWal = true → (znsSync p inner flags writeRc xS).1 = SQLITE_OK →
      (znsSync p inner flags writeRc xS).2.1.iFlushed
        = (znsSync p inner flags writeRc xS).2.1.nBuffer) ∧
    (p.isZnsWal = false → znsSync p inner flags writeRc xS = (xS flags, p, inner)) := by
  refine ⟨?_, ?_, ?_⟩
  · intro hz
    constructor
    · intro hok
      unfold znsSync
      simp only [hz, if_true, hok]
    · intro hne
      unfold znsSync
      simp only [hz, if_true, if_neg hne]
      exact ⟨by simp [hne], by simp [hne]⟩
  · intro hz hok
    have hslemma := flush_ok_flushed p inner writeRc hz h2 (fun h => h3 h)
    unfold znsSync at hok ⊢
    simp only [hz, if_true] at hok ⊢
    by_cases hf : (znsFlushBuffer p inner writeRc).1 = SQLITE_OK
    · simp only [hf, if_true] at hok ⊢
      exact hslemma hf
    · rw [if_neg hf] at hok
      exact absurd hok hf
  · intro hz
    unfold znsSync
    simp [hz]

/-- Witness for C3: a successful sync (inner sync `flags - 2` at flags 2
returns 0) flushes `[2]` at offset 1 and ends with `flushed = logical_size`;
a non-ZNS handle passes through `flags + 1`. -/
theorem claim_C3_witness :
    znsSync ⟨true, [1, 2], 2, 1⟩ [9] 2 0 (fun f => f - 2) =
      ((0 : Int), ⟨true, [1, 2], 2, 2⟩, [9, 2]) ∧
    znsSync ⟨false, [], 0, 0⟩ [3] 7 1 (fun f => f + 1) = ((8 : Int), ⟨false, [], 0, 0⟩, [3]) := by
  have hA := claim_C3 ⟨true, [1, 2], 2, 1⟩ [9] 2 0 (fun f => f - 2) (fun f => f)
    (by decide) (fun h => by cases h)
  have hB := claim_C3 ⟨false, [], 0, 0⟩ [3] 7 1 (fun f => f + 1) (fun f => f)
    (by decide) (fun _ => by decide)
  exact ⟨((hA.1 rfl).1 (by decide)).trans (by decide), (hB.2.2 rfl).trans (by decide)⟩

/-- C7 (counterexample). The claim says the reset driver maps every failure,
including a failed reopen of the zone file, to an I/O truncate error. At a
concrete ZNS-WAL handle with the reopen failing, `znsTruncate 0` returns
`SQLITE_IOERR_ACCESS`, which is neither success nor the truncate error. -/
theorem claim_C7_counterexample :
    (znsTruncate ⟨true, [1], 1, 1⟩ 0 false true 0).1 = SQLITE_IOERR_ACCESS ∧
    SQLITE_IOERR_ACCESS ≠ SQLITE_IOERR_TRUNCATE ∧
    SQLITE_IOERR_ACCESS ≠ SQLITE_OK := by
  refine ⟨by decide, by decide, by decide⟩

/-- C7 (amended). Truncate to size 0 on a ZNS-WAL handle sets `logical_size`
and `flushed` to 0, invokes the zone-reset driver and returns its result;
the driver succeeds iff both the reopen and the reset ioctl succeed, maps an
ioctl failure to an I/O truncate error, and maps a failed reopen of the zone
file to an I/O access error. -/
theorem claim_C7 (p : ZnsFile) (openOk ioctlOk : Bool) (passRc : Int)
    (hz : p.isZnsWal = true) :
    znsTruncate p 0 openOk ioctlOk passRc
      = (resetZnsZone true openOk ioctlOk, { p with nBuffer := 0, iFlushed := 0 }) ∧
    (resetZnsZone true openOk ioctlOk = SQLITE_OK ↔ openOk = true ∧ ioctlOk = true) ∧
    (openOk = false → resetZnsZone true openOk ioctlOk = SQLITE_IOERR_ACCESS) ∧
    (openOk = true → ioctlOk = false →
      resetZnsZone true openOk ioctlOk = SQLITE_IOERR_TRUNCATE) := by
  refine ⟨?_, ?_, ?_, ?_⟩
  · unfold znsTruncate
    rw [if_pos ⟨hz, rfl⟩]
  · cases openOk <;> cases ioctlOk <;> simp [resetZnsZone, SQLITE_OK,
      SQLITE_IOERR_ACCESS, SQLITE_IOERR_TRUNCATE]
  · intro ho; subst ho; rfl
  · intro ho hi; subst ho; subst hi; rfl

/-- Witness for C7 (amended) at a concrete handle: an ioctl failure yields
the I/O truncate error and zeroes both counters. -/
theorem claim_C7_witness :
    znsTruncate ⟨true, [5], 1, 1⟩ 0 true false 0
      = (SQLITE_IOERR_TRUNCATE, ⟨true, [5], 0, 0⟩) ∧
    (resetZnsZone true true false = SQLITE_OK ↔ True ∧ False) := by
  have h := claim_C7 ⟨true, [5], 1, 1⟩ true false 0 rfl
  constructor
  · exact h.1.trans (by rw [h.2.2.2 rfl rfl])
  · rw [h.2.2.2 rfl rfl]
    simp [SQLITE_IOERR_TRUNCATE, SQLITE_OK]

/-- C9. Device characteristics of a ZNS-WAL handle are exactly the mask of the inner
backend: the shim adds neither the sequential-only bit nor the
power-safe-overwrite bit. -/
theorem claim_C9 (p : ZnsFile) (innerBits : Nat) :
    znsDeviceCharacteristics p innerBits = innerBits ∧
    Nat.land (znsDeviceCharacteristics p innerBits) SQLITE_IOCAP_SEQUENTIAL
      = Nat.land innerBits SQLITE_IOCAP_SEQUENTIAL ∧
    Nat.land (znsDeviceCharacteristics p innerBits) SQLITE_IOCAP_POWERSAFE_OVERWRITE
      = Nat.land innerBits SQLITE_IOCAP_POWERSAFE_OVERWRITE :=
  ⟨rfl, rfl, rfl⟩

/-! ### Helper lemmas: Zone Manager scans -/

/-- Scan 2 never reaches past a run of Allocated records: on
`pre ++ z :: post` with `pre` all Allocated and `z` Free it allocates `z`. -/
lemma acquireFree_split (pre post : List ZoneRec) (z : ZoneRec) (b : List Char)
    (hpre : ∀ y ∈ pre, y.zState = true) (hz : z.zState = false) :
    acquireFree (pre ++ z :: post) b =
      (some z.zPath, pre ++ { z with zState := true, zWal := some b } :: post) := by
  induction pre with
  | nil =>
    simp only [List.nil_append]
    unfold acquireFree
    rw [if_pos hz]
  | cons y ys ih =>
    have hy : y.zState = true := hpre y (List.mem_cons_self y ys)
    simp only [List.cons_append]
    unfold acquireFree
    rw [if_neg (by simp [hy])]
    rw [ih (fun x hx => hpre x (List.mem_cons_of_mem y hx))]

/-- Scan 2 on an all-Allocated manager finds nothing and changes nothing. -/
lemma acquireFree_all_alloc (zs : List ZoneRec) (b : List Char)
    (h : ∀ y ∈ zs, y.zState = true) : acquireFree zs b = (none, zs) := by
  induction zs with
  | nil => rfl
  | cons z zs ih =>
    have hz : z.zState = true := h z (List.mem_cons_self z zs)
    unfold acquireFree
    rw [if_neg (by simp [hz])]
    rw [ih (fun x hx => h x (List.mem_cons_of_mem z hx))]

/-- Membership in the output of scan 2: an output record either was in the input
or is the record just allocated to `b`. -/
lemma acquireFree_mem (zs : List ZoneRec) (b : List Char) :
    ∀ y ∈ (acquireFree zs b).2, y ∈ zs ∨ (y.zState = true ∧ y.zWal = some b) := by
  induction zs with
  | nil => intro y hy; exact absurd hy (by simp [acquireFree])
  | cons z zs ih =>
    intro y hy
    unfold acquireFree at hy
    by_cases hz : z.zState = false
    · rw [if_pos hz] at hy
      rcases List.mem_cons.mp hy with h1 | h1
      · exact Or.inr (by rw [h1]; exact ⟨rfl, rfl⟩)
      · exact Or.inl (List.mem_cons_of_mem z h1)
    · rw [if_neg hz] at hy
      rcases List.mem_cons.mp hy with h1 | h1
      · exact Or.inl (by rw [h1]; exact List.mem_cons_self z zs)
      · rcases ih y h1 with h2 | h2
        · exact Or.inl (List.mem_cons_of_mem z h2)
        · exact Or.inr h2

/-- A failed scan 1 over a state-consistent manager means no record at all
carries the base name. -/
lemma findMapped_none_imp (zs : List ZoneRec) (b : List Char)
    (hn : findMapped zs b = none) (hst : zstateMatches zs) :
    ∀ x ∈ zs, x.zWal ≠ some b := by
  induction zs with
  | nil => intro x hx; exact absurd hx (List.not_mem_nil x)
  | cons z zs ih =>
    intro x hx
    unfold findMapped at hn
    by_cases hc : z.zState = true ∧ z.zWal = some b
    · rw [if_pos hc] at hn; exact absurd hn (by simp)
    · rw [if_neg hc] at hn
      rcases List.mem_cons.mp hx with h1 | h1
      · subst h1
        intro hw
        have hs : x.zState = true :=
          (hst x (List.mem_cons_self x zs)).mpr (by simp [hw])
        exact hc ⟨hs, hw⟩
      · exact ih hn (fun y hy => hst y (List.mem_cons_of_mem z hy)) x h1

/-- The uniqueness half of the invariant holds whenever no record carries a
name at all. -/
lemma allNone_unique (zs : List ZoneRec) (h : ∀ z ∈ zs, z.zWal = none) :
    zwalUnique zs := by
  induction zs with
  | nil => exact List.Pairwise.nil
  | cons z zs ih =>
    exact List.Pairwise.cons
      (fun y _ => Or.inl (h z (List.mem_cons_self z zs)))
      (ih (fun y hy => h y (List.mem_cons_of_mem z hy)))

/-- Scan 2 preserves the Zone Manager invariant when the base name is not
yet mapped anywhere. -/
lemma acquireFree_inv (zs : List ZoneRec) (b : List Char)
    (hb : ∀ x ∈ zs, x.zWal ≠ some b) (h : zmInv zs) :
    zmInv (acquireFree zs b).2 := by
  induction zs with
  | nil => exact h
  | cons z zs ih =>
    obtain ⟨hpw, hst⟩ := h
    rw [zwalUnique, List.pairwise_cons] at hpw
    unfold acquireFree
    by_cases hz : z.zState = false
    · rw [if_pos hz]
      constructor
      · exact List.Pairwise.cons
          (fun y hy => Or.inr (by
            simp only
            exact fun he => hb y (List.mem_cons_of_mem z hy) he.symm))
          hpw.2
      · intro x hx
        rcases List.mem_cons.mp hx with h1 | h1
        · subst h1; simp
        · exact hst x (List.mem_cons_of_mem z h1)
    · rw [if_neg hz]
      have hbt : ∀ x ∈ zs, x.zWal ≠ some b :=
        fun x hx => hb x (List.mem_cons_of_mem z hx)
      have hinv : zmInv zs :=
        ⟨hpw.2, fun x hx => hst x (List.mem_cons_of_mem z hx)⟩
      have iht := ih hbt hinv
      constructor
      · refine List.Pairwise.cons ?_ iht.1
        intro y hy
        rcases acquireFree_mem zs b y hy with h1 | h1
        · exact hpw.1 y h1
        · refine Or.inr ?_
          rw [h1.2]
          exact hb z (List.mem_cons_self z zs)
      · intro x hx
        rcases List.mem_cons.mp hx with h1 | h1
        · subst h1; exact hst x (List.mem_cons_self x zs)
        · exact iht.2 x h1

/-- `znsGetFreeZoneFile` preserves the Zone Manager invariant. -/
lemma znsGetFreeZoneFile_inv (zm : List ZoneRec) (w : List Char) (ok : Bool)
    (h : zmInv zm) : zmInv (znsGetFreeZoneFile zm w ok).2 := by
  unfold znsGetFreeZoneFile
  cases hf : findMapped zm (baseName w) with
  | none =>
    cases ok with
    | false => exact h
    | true =>
      simp only [if_true]
      exact acquireFree_inv zm (baseName w) (findMapped_none_imp zm _ hf h.2) h
  | some pa => exact h

/-- Membership in the output of the release step: a record either was in the
input or has just had its mapping cleared. -/
lemma znsCloseRelease_mem (zs : List ZoneRec) (pa : List Char) :
    ∀ y ∈ znsCloseRelease zs pa, y ∈ zs ∨ y.zWal = none := by
  induction zs with
  | nil => intro y hy; exact absurd hy (by simp [znsCloseRelease])
  | cons z zs ih =>
    intro y hy
    unfold znsCloseRelease at hy
    by_cases hp : z.zPath = pa
    · rw [if_pos hp] at hy
      by_cases hs : z.zState = true
      · rw [if_pos hs] at hy
        rcases List.mem_cons.mp hy with h1 | h1
        · exact Or.inr (by rw [h1])
        · exact Or.inl (List.mem_cons_of_mem z h1)
      · rw [if_neg hs] at hy
        exact Or.inl hy
    · rw [if_neg hp] at hy
      rcases List.mem_cons.mp hy with h1 | h1
      · exact Or.inl (by rw [h1]; exact List.mem_cons_self z zs)
      · rcases ih y h1 with h2 | h2
        · exact Or.inl (List.mem_cons_of_mem z h2)
        · exact Or.inr h2

/-- The release step of `znsClose` preserves the Zone Manager invariant. -/
lemma znsCloseRelease_inv (zs : List ZoneRec) (pa : List Char) (h : zmInv zs) :
    zmInv (znsCloseRelease zs pa) := by
  induction zs with
  | nil => exact h
  | cons z zs ih =>
    obtain ⟨hpw, hst⟩ := h
    rw [zwalUnique, List.pairwise_cons] at hpw
    have hinv : zmInv zs :=
      ⟨hpw.2, fun x hx => hst x (List.mem_cons_of_mem z hx)⟩
    unfold znsCloseRelease
    by_cases hp : z.zPath = pa
    · rw [if_pos hp]
      by_cases hs : z.zState = true
      · rw [if_pos hs]
        constructor
        · exact List.Pairwise.cons (fun y _ => Or.inl rfl) hpw.2
        · intro x hx
          rcases List.mem_cons.mp hx with h1 | h1
          · subst h1; simp
          · exact hst x (List.mem_cons_of_mem z h1)
      · rw [if_neg hs]
        exact ⟨List.Pairwise.cons hpw.1 hpw.2, hst⟩
    · rw [if_neg hp]
      have iht := ih hinv
      constructor
      · refine List.Pairwise.cons ?_ iht.1
        intro y hy
        rcases znsCloseRelease_mem zs pa y hy with h1 | h1
        · exact hpw.1 y h1
        · by_cases hzw : z.zWal = none
          · exact Or.inl hzw
          · exact Or.inr (by rw [h1]; exact hzw)
      · intro x hx
        rcases List.mem_cons.mp hx with h1 | h1
        · subst h1; exact hst x (List.mem_cons_self x zs)
        · exact iht.2 x h1

/-- The delete scan frees the first record mapped to `b`. -/
lemma znsDeleteScan_split (pre post : List ZoneRec) (z : ZoneRec) (b : List Char)
    (hpre : ∀ y ∈ pre, ¬(y.zState = true ∧ y.zWal = some b))
    (hs : z.zState = true) (hw : z.zWal = some b) :
    znsDeleteScan (pre ++ z :: post) b =
      some (pre ++ { z with zState := false, zWal := none } :: post) := by
  induction pre with
  | nil =>
    simp only [List.nil_append]
    unfold znsDeleteScan
    rw [if_pos ⟨hs, hw⟩]
  | cons y ys ih =>
    have hy := hpre y (List.mem_cons_self y ys)
    simp only [List.cons_append]
    unfold znsDeleteScan
    rw [if_neg hy, ih (fun x hx => hpre x (List.mem_cons_of_mem y hx))]

/-- The delete scan fails exactly when no record is mapped to `b`. -/
lemma znsDeleteScan_none (zs : List ZoneRec) (b : List Char)
    (h : ∀ y ∈ zs, ¬(y.zState = true ∧ y.zWal = some b)) :
    znsDeleteScan zs b = none := by
  induction zs with
  | nil => rfl
  | cons z zs ih =>
    unfold znsDeleteScan
    rw [if_neg (h z (List.mem_cons_self z zs))]
    rw [ih (fun x hx => h x (List.mem_cons_of_mem z hx))]

/-- Membership in the output of the delete scan: a record either was in the input
or has just had its mapping cleared. -/
lemma znsDeleteScan_mem (zs : List ZoneRec) (b : List Char) (zs1 : List ZoneRec)
    (hsc : znsDeleteScan zs b = some zs1) :
    ∀ y ∈ zs1, y ∈ zs ∨ y.zWal = none := by
  induction zs generalizing zs1 with
  | nil => exact absurd hsc (by simp [znsDeleteScan])
  | cons z zs ih =>
    intro y hy
    unfold znsDeleteScan at hsc
    by_cases hc : z.zState = true ∧ z.zWal = some b
    · rw [if_pos hc] at hsc
      cases hsc
      rcases List.mem_cons.mp hy with h1 | h1
      · exact Or.inr (by rw [h1])
      · exact Or.inl (List.mem_cons_of_mem z h1)
    · rw [if_neg hc] at hsc
      cases hr : znsDeleteScan zs b with
      | none => rw [hr] at hsc; exact absurd hsc (by simp)
      | some zs2 =>
        rw [hr] at hsc
        cases hsc
        rcases List.mem_cons.mp hy with h1 | h1
        · exact Or.inl (by rw [h1]; exact List.mem_cons_self z zs)
        · rcases ih zs2 hr y h1 with h2 | h2
          · exact Or.inl (List.mem_cons_of_mem z h2)
          · exact Or.inr h2

/-- The release inside `znsDelete` preserves the Zone Manager invariant. -/
lemma znsDeleteScan_inv (zs : List ZoneRec) (b : List Char) (zs1 : List ZoneRec)
    (hsc : znsDeleteScan zs b = some zs1) (h : zmInv zs) : zmInv zs1 := by
  induction zs generalizing zs1 with
  | nil => exact absurd hsc (by simp [znsDeleteScan])
  | cons z zs ih =>
    obtain ⟨hpw, hst⟩ := h
    rw [zwalUnique, List.pairwise_cons] at hpw
    have hinv : zmInv zs :=
      ⟨hpw.2, fun x hx => hst x (List.mem_cons_of_mem z hx)⟩
    unfold znsDeleteScan at hsc
    by_cases hc : z.zState = true ∧ z.zWal = some b
    · rw [if_pos hc] at hsc
      cases hsc
      constructor
      · exact List.Pairwise.cons (fun y _ => Or.inl rfl) hpw.2
      · intro x hx
        rcases List.mem_cons.mp hx with h1 | h1
        · subst h1; simp
        · exact hst x (List.mem_cons_of_mem z h1)
    · rw [if_neg hc] at hsc
      cases hr : znsDeleteScan zs b with
      | none => rw [hr] at hsc; exact absurd hsc (by simp)
      | some zs2 =>
        rw [hr] at hsc
        cases hsc
        have iht := ih zs2 hr hinv
        constructor
        · refine List.Pairwise.cons ?_ iht.1
          intro y hy
          rcases znsDeleteScan_mem zs b zs2 hr y hy with h1 | h1
          · exact hpw.1 y h1
          · by_cases hzw : z.zWal = none
            · exact Or.inl hzw
            · exact Or.inr (by rw [h1]; exact hzw)
        · intro x hx
          rcases List.mem_cons.mp hx with h1 | h1
          · subst h1; exact hst x (List.mem_cons_self x zs)
          · exact iht.2 x h1

/-! ### Claim theorems: Zone Manager -/

/-- C4. `znsGetFreeZoneFile` returns the path of the zone already mapped to
the base name of the WAL when one exists; otherwise it allocates the first
(lowest-index) Free zone, recording the base name, and returns its path;
when every zone is Allocated and none is mapped to the name it returns
`none` with the manager unchanged, and the ZNS-WAL open then fails with
`SQLITE_FULL` (resource exhaustion), again leaving every zone unchanged. -/
theorem claim_C4 (zm pre post : List ZoneRec) (z : ZoneRec) (w pa : List Char)
    (ok : Bool) :
    (findMapped zm (baseName w) = some pa →
      znsGetFreeZoneFile zm w ok = (some pa, zm)) ∧
    (findMapped zm (baseName w) = none → zm = pre ++ z :: post →
      (∀ y ∈ pre, y.zState = true) → z.zState = false →
      znsGetFreeZoneFile zm w true =
        (some z.zPath,
         pre ++ { z with zState := true, zWal := some (baseName w) } :: post)) ∧
    ((∀ y ∈ zm, y.zState = true) → findMapped zm (baseName w) = none →
      znsGetFreeZoneFile zm w ok = (none, zm) ∧
      znsOpenAcquireZone zm w ok = (SQLITE_FULL, zm)) := by
  refine ⟨?_, ?_, ?_⟩
  · intro hf
    unfold znsGetFreeZoneFile
    rw [hf]
  · intro hf heq hpre hz
    unfold znsGetFreeZoneFile
    rw [hf]
    simp only [if_true]
    rw [heq, acquireFree_split pre post z (baseName w) hpre hz]
  · intro hall hf
    have hnone : acquireFree zm (baseName w) = (none, zm) :=
      acquireFree_all_alloc zm _ hall
    have hgf : znsGetFreeZoneFile zm w ok = (none, zm) := by
      unfold znsGetFreeZoneFile
      rw [hf]
      cases ok with
      | false => rfl
      | true => simp only [if_true]; exact hnone
    refine ⟨hgf, ?_⟩
    unfold znsOpenAcquireZone
    rw [hgf]

/-- Witness for C4: a two-zone manager returns the existing mapping for
`a-wal`, allocates the lowest free zone to `b-wal`, and a fully Allocated
manager yields `none` and an open failure with `SQLITE_FULL`. -/
theorem claim_C4_witness :
    znsGetFreeZoneFile
        [⟨"/z/0000".toList, true, some ("a-wal".toList)⟩,
         ⟨"/z/0001".toList, false, none⟩] ("/db/a-wal".toList) true
      = (some ("/z/0000".toList),
         [⟨"/z/0000".toList, true, some ("a-wal".toList)⟩,
          ⟨"/z/0001".toList, false, none⟩]) ∧
    znsGetFreeZoneFile
        [⟨"/z/0000".toList, true, some ("a-wal".toList)⟩,
         ⟨"/z/0001".toList, false, none⟩] ("/db/b-wal".toList) true
      = (some ("/z/0001".toList),
         [⟨"/z/0000".toList, true, some ("a-wal".toList)⟩,
          ⟨"/z/0001".toList, true, some ("b-wal".toList)⟩]) ∧
    znsOpenAcquireZone [⟨"/z/0000".toList, true, some ("a-wal".toList)⟩]
        ("/db/b-wal".toList) true
      = (SQLITE_FULL, [⟨"/z/0000".toList, true, some ("a-wal".toList)⟩]) := by
  refine ⟨?_, ?_, ?_⟩
  · exact (claim_C4
      [⟨"/z/0000".toList, true, some ("a-wal".toList)⟩, ⟨"/z/0001".toList, false, none⟩]
      [] [] ⟨[], false, none⟩ ("/db/a-wal".toList) ("/z/0000".toList) true).1 (by decide)
  · exact ((claim_C4
      [⟨"/z/0000".toList, true, some ("a-wal".toList)⟩, ⟨"/z/0001".toList, false, none⟩]
      [⟨"/z/0000".toList, true, some ("a-wal".toList)⟩] []
      ⟨"/z/0001".toList, false, none⟩ ("/db/b-wal".toList) [] true).2.1
      (by decide) (by decide) (by decide) (by decide)).trans (by decide)
  · exact ((claim_C4 [⟨"/z/0000".toList, true, some ("a-wal".toList)⟩]
      [] [] ⟨[], false, none⟩ ("/db/b-wal".toList) [] true).2.2
      (by decide) (by decide)).2

/-- C5. With ZNS mode enabled and a path ending in `-wal` (case-insensitive):
when a zone is mapped to the base name of the path, `znsDelete` attempts the
physical zone reset, clears the mapping and marks the zone Free regardless
of the reset outcome (the oracle `resetOk` is universally quantified and the
result does not depend on it), and returns `SQLITE_OK` even when the reset
failed; when no zone is mapped to the base name the delete is passed through
to the OS backend. -/
theorem claim_C5 (zm pre post : List ZoneRec) (z : ZoneRec) (zPath : List Char)
    (resetOk : Bool) (passRc : Int)
    (hsuf : hasWalSuffix zPath = true) :
    (zm = pre ++ z :: post →
      (∀ y ∈ pre, ¬(y.zState = true ∧ y.zWal = some (baseName zPath))) →
      z.zState = true → z.zWal = some (baseName zPath) →
      znsDelete zm zPath true resetOk passRc =
        (SQLITE_OK, pre ++ { z with zState := false, zWal := none } :: post, true)) ∧
    ((∀ y ∈ zm, ¬(y.zState = true ∧ y.zWal = some (baseName zPath))) →
      znsDelete zm zPath true resetOk passRc = (passRc, zm, false)) := by
  constructor
  · intro heq hpre hs hw
    unfold znsDelete
    rw [if_pos (by simp [hsuf])]
    rw [heq, znsDeleteScan_split pre post z (baseName zPath) hpre hs hw]
  · intro hnone
    unfold znsDelete
    rw [if_pos (by simp [hsuf])]
    rw [znsDeleteScan_none zm (baseName zPath) hnone]

/-- Witness for C5: deleting `/home/db-wal` with a mapped zone succeeds and
frees the zone even though the reset fails (`resetOk = false`); with no
mapped zone the delete passes through with code 42. -/
theorem claim_C5_witness :
    znsDelete [⟨"/z/0000".toList, true, some ("db-wal".toList)⟩]
        ("/home/db-wal".toList) true false 42
      = (SQLITE_OK, [⟨"/z/0000".toList, false, none⟩], true) ∧
    znsDelete [⟨"/z/0000".toList, false, none⟩]
        ("/home/db-wal".toList) true false 42
      = ((42 : Int), [⟨"/z/0000".toList, false, none⟩], false) := by
  constructor
  · exact ((claim_C5 [⟨"/z/0000".toList, true, some ("db-wal".toList)⟩]
      [] [] ⟨"/z/0000".toList, true, some ("db-wal".toList)⟩
      ("/home/db-wal".toList) false 42 (by decide)).1
      (by decide) (by decide) (by decide) (by decide)).trans (by decide)
  · exact (claim_C5 [⟨"/z/0000".toList, false, none⟩]
      [] [] ⟨[], false, none⟩ ("/home/db-wal".toList) false 42 (by decide)).2
      (by decide)

/-- C6. The Zone Manager invariant — every WAL base name mapped by at most
one zone, and Allocated exactly when a mapping is present — holds after
discovery and is preserved by every mutating operation: acquire
(`znsGetFreeZoneFile`), release on close, and delete. -/
theorem claim_C6 :
    (∀ root entries, zmInv (znsZoneManagerInit root entries)) ∧
    (∀ zm w ok, zmInv zm → zmInv (znsGetFreeZoneFile zm w ok).2) ∧
    (∀ zm pa, zmInv zm → zmInv (znsCloseRelease zm pa)) ∧
    (∀ zm pa en rOk passRc, zmInv zm → zmInv (znsDelete zm pa en rOk passRc).2.1) := by
  refine ⟨?_, znsGetFreeZoneFile_inv, znsCloseRelease_inv, ?_⟩
  · intro root entries
    constructor
    · apply allNone_unique
      intro z hz
      simp only [znsZoneManagerInit, List.mem_map] at hz
      obtain ⟨e, _, he⟩ := hz
      rw [← he]
    · intro z hz
      simp only [znsZoneManagerInit, List.mem_map] at hz
      obtain ⟨e, _, he⟩ := hz
      rw [← he]
      simp
  · intro zm pa en rOk passRc h
    unfold znsDelete
    by_cases hc : (en && hasWalSuffix pa) = true
    · rw [if_pos hc]
      cases hr : znsDeleteScan zm (baseName pa) with
      | none => exact h
      | some zs1 => exact znsDeleteScan_inv zm (baseName pa) zs1 hr h
    · rw [if_neg hc]
      exact h

/-- Witness for C6: the invariant holds for a concrete one-free-zone manager
and is preserved by a concrete acquire of `x-wal`. -/
theorem claim_C6_witness :
    zmInv (znsZoneManagerInit ("/z".toList) [("0000".toList, DType.reg)]) ∧
    zmInv (znsGetFreeZoneFile [⟨"/z/0000".toList, false, none⟩]
      ("x-wal".toList) true).2 := by
  constructor
  · exact claim_C6.1 ("/z".toList) [("0000".toList, DType.reg)]
  · exact claim_C6.2.1 [⟨"/z/0000".toList, false, none⟩] ("x-wal".toList) true
      (by decide)

/-- C8 (counterexample). The claim says an entry becomes a zone exactly when
its name matches four lowercase hexadecimal digits. The regular-file entry
`ff` is not four lowercase hex digits, yet `sscanf(name, "%04x", &n)`
converts it, so discovery turns it into a zone: a root holding only `ff`
yields one zone, where the claimed predicate demands zero. -/
theorem claim_C8_counterexample :
    isZoneEntry ("ff".toList, DType.reg) = true ∧
    specFourLowerHex ("ff".toList) = false ∧
    (znsZoneManagerInit ("/z".toList) [("ff".toList, DType.reg)]).length = 1 := by
  refine ⟨by decide, by decide, by decide⟩

/-- C8 (amended). A directory entry becomes a zone record exactly when it is
a regular-file or unknown-type entry whose name is accepted by
`sscanf("%04x")` — i.e. after optional whitespace and an optional sign it
starts with a hexadecimal digit, case-insensitive and not limited to four
digits; every zone record produced by discovery is initially Free with no
mapped WAL name; in particular a root holding `0000`, `0001`, `0002` and
`readme.txt` yields exactly 3 zones. -/
theorem claim_C8 (root name : List Char) (dt : DType)
    (entries : List (List Char × DType)) :
    ((znsZoneManagerInit root [(name, dt)]).length = 1 ↔
      ((dt = DType.reg ∨ dt = DType.unknown) ∧ scanfHex4Accepts name = true)) ∧
    (∀ z ∈ znsZoneManagerInit root entries, z.zState = false ∧ z.zWal = none) ∧
    (znsZoneManagerInit ("/z".toList)
        [("0000".toList, DType.reg), ("0001".toList, DType.reg),
         ("0002".toList, DType.reg), ("readme.txt".toList, DType.reg)]).length = 3 := by
  refine ⟨?_, ?_, by decide⟩
  · unfold znsZoneManagerInit
    rw [List.length_map]
    by_cases h : isZoneEntry (name, dt) = true
    · rw [List.filter_cons_of_pos h]
      simp only [List.filter_nil, List.length_cons, List.length_nil]
      constructor
      · intro _
        have h2 := h
        unfold isZoneEntry at h2
        rw [Bool.and_eq_true, Bool.or_eq_true] at h2
        exact ⟨by rcases h2.1 with h3 | h3 <;> [left; right] <;>
          exact beq_iff_eq.mp h3, h2.2⟩
      · intro _; trivial
    · rw [List.filter_cons_of_neg h]
      simp only [List.filter_nil, List.length_nil]
      constructor
      · intro h0; exact absurd h0 (by decide)
      · intro ⟨hdt, hsc⟩
        exfalso
        apply h
        unfold isZoneEntry
        rw [Bool.and_eq_true, Bool.or_eq_true]
        exact ⟨by rcases hdt with h3 | h3 <;> [left; right] <;>
          exact beq_iff_eq.mpr h3, hsc⟩
  · intro z hz
    simp only [znsZoneManagerInit, List.mem_map] at hz
    obtain ⟨e, _, he⟩ := hz
    rw [← he]
    exact ⟨rfl, rfl⟩

/-- Witness for C8 (amended): the two-hex-digit name `ff` is accepted as a
single zone, a directory entry is rejected, and the literal discovery
example yields Free unmapped zones. -/
theorem claim_C8_witness :
    ((znsZoneManagerInit ("/z".toList) [("ff".toList, DType.reg)]).length = 1 ↔
      ((DType.reg = DType.reg ∨ DType.reg = DType.unknown) ∧
        scanfHex4Accepts ("ff".toList) = true)) ∧
    ((znsZoneManagerInit ("/z".toList) [("0000".toList, DType.dir)]).length = 1 ↔
      ((DType.dir = DType.reg ∨ DType.dir = DType.unknown) ∧
        scanfHex4Accepts ("0000".toList) = true)) ∧
    (⟨"/z/0000".toList, false, none⟩ : ZoneRec).zState = false ∧
    (⟨"/z/0000".toList, false, none⟩ : ZoneRec).zWal = none := by
  refine ⟨(claim_C8 ("/z".toList) ("ff".toList) DType.reg []).1,
    (claim_C8 ("/z".toList) ("0000".toList) DType.dir []).1, ?_⟩
  have h := (claim_C8 ("/z".toList) ("0000".toList) DType.reg
    [("0000".toList, DType.reg)]).2.1 ⟨"/z/0000".toList, false, none⟩ (by decide)
  exact h
